import Mathlib

/-!
Shallow embedding of the NailVault client state core (single-file React app):
the settings normalizer, the domain reducer, the remote-sync listener payloads,
the settings push of the cloud-sync hook, and the backup export/import path.
JavaScript numbers are modelled as rationals extended with NaN and the two
infinities; JavaScript scalar values as an inductive `JVal`; records as
association lists with string keys. Operations that can throw in JavaScript
(building an array of length at least 2 to the 32) return `Except`.
-/

deriving instance DecidableEq for Except

namespace NailVault

/-- JavaScript number: NaN, the infinities, or a finite value (modelled as a
rational; the doubles relevant to the claims are integers, on which this model
is exact). -/
inductive JNum where
  | nan
  | inf
  | ninf
  | val (q : ℚ)
deriving DecidableEq, Repr

/-- JavaScript scalar value. Record fields in this app that the claims touch
are scalars; array-valued record fields are outside the model. -/
inductive JVal where
  | undefined
  | null
  | bool (b : Bool)
  | num (n : JNum)
  | str (s : String)
deriving DecidableEq, Repr

/-- Whitespace accepted by JavaScript string trimming and numeric conversion. -/
def jsSpace (c : Char) : Bool :=
  c == ' ' || c == '\t' || c == '\n' || c == '\r' || c == '\x0B' || c == '\x0C' ||
    c == '\u00A0' || c == '\uFEFF'

/-- JavaScript String.prototype.trim. -/
def jsStrTrim (s : String) : String :=
  String.mk (((s.data.dropWhile jsSpace).reverse.dropWhile jsSpace).reverse)

/-- Value of a list of decimal digit characters. -/
def decDigits (cs : List Char) : ℕ :=
  cs.foldl (fun a c => a * 10 + (c.toNat - 48)) 0

/-- Hexadecimal digit test. -/
def isHexDigitCh (c : Char) : Bool :=
  (48 ≤ c.toNat && c.toNat ≤ 57) || (65 ≤ c.toNat && c.toNat ≤ 70) ||
    (97 ≤ c.toNat && c.toNat ≤ 102)

/-- Hexadecimal digit value. -/
def hexDigitVal (c : Char) : ℕ :=
  if c.toNat ≤ 57 then c.toNat - 48 else if c.toNat ≤ 70 then c.toNat - 55 else c.toNat - 87

/-- Radix-prefixed integer literal body, as in Number of a 0x, 0o or 0b string. -/
def radixNum (b : ℕ) (isD : Char → Bool) (dv : Char → ℕ) (cs : List Char) : JNum :=
  if cs ≠ [] && cs.all isD then .val ((cs.foldl (fun a c => a * b + dv c) 0 : ℕ) : ℚ)
  else .nan

/-- Apply a decimal exponent part to a mantissa. -/
def expApply (mant : ℚ) (d : List Char) (pos : Bool) : JNum :=
  if d ≠ [] && d.all Char.isDigit then
    .val (if pos then mant * 10 ^ decDigits d else mant / 10 ^ decDigits d)
  else .nan

/-- Mantissa digits plus optional exponent tail of a decimal number string. -/
def withExp (ip fp rest : List Char) : JNum :=
  let mant : ℚ := (decDigits ip : ℚ) + (decDigits fp : ℚ) / 10 ^ fp.length
  match rest with
  | [] => .val mant
  | c :: r =>
      if c == 'e' || c == 'E' then
        match r with
        | '+' :: d => expApply mant d true
        | '-' :: d => expApply mant d false
        | d => expApply mant d true
      else .nan

/-- Unsigned decimal number string (JavaScript StrUnsignedDecimalLiteral). -/
def posDec (cs : List Char) : JNum :=
  if cs = "Infinity".data then .inf
  else
    let ip := cs.takeWhile Char.isDigit
    let r1 := cs.dropWhile Char.isDigit
    match r1 with
    | '.' :: r =>
        let fp := r.takeWhile Char.isDigit
        let r2 := r.dropWhile Char.isDigit
        if ip.isEmpty && fp.isEmpty then .nan else withExp ip fp r2
    | _ => if ip.isEmpty then .nan else withExp ip [] r1

/-- Negation on JavaScript numbers. -/
def jnumNeg : JNum → JNum
  | .nan => .nan
  | .inf => .ninf
  | .ninf => .inf
  | .val q => .val (-q)

/-- Optionally signed decimal number string. -/
def signedDec (cs : List Char) : JNum :=
  match cs with
  | '+' :: r => posDec r
  | '-' :: r => jnumNeg (posDec r)
  | _ => posDec cs

/-- JavaScript Number applied to a string. -/
def strToNum (s : String) : JNum :=
  match (jsStrTrim s).data with
  | [] => .val 0
  | '0' :: c :: r =>
      if c == 'x' || c == 'X' then radixNum 16 isHexDigitCh hexDigitVal r
      else if c == 'o' || c == 'O' then radixNum 8 (fun d => 48 ≤ d.toNat && d.toNat ≤ 55) (fun d => d.toNat - 48) r
      else if c == 'b' || c == 'B' then radixNum 2 (fun d => d == '0' || d == '1') (fun d => d.toNat - 48) r
      else signedDec ('0' :: c :: r)
  | cs => signedDec cs

/-- JavaScript ToNumber on scalar values. -/
def toNumber : JVal → JNum
  | .undefined => .nan
  | .null => .val 0
  | .bool b => .val (if b then 1 else 0)
  | .num n => n
  | .str s => strToNum s

/-- The nullish coalescing operator: x ?? d. -/
def jsCoalesce (x d : JVal) : JVal :=
  match x with
  | .undefined => d
  | .null => d
  | _ => x

/-- Math.max(1, n): NaN propagates. -/
def jsMax1 : JNum → JNum
  | .nan => .nan
  | .inf => .inf
  | .ninf => .val 1
  | .val q => .val (max 1 q)

/-- JavaScript ToLength: NaN and negatives give 0, truncation toward zero,
clamped at 2 to the 53 minus 1. -/
def toLength (n : JNum) : ℕ :=
  match n with
  | .nan => 0
  | .ninf => 0
  | .inf => 2 ^ 53 - 1
  | .val q => if q ≤ 0 then 0 else min q.floor.toNat (2 ^ 53 - 1)

/-- Errors the embedded code can raise: the RangeError thrown when an array of
invalid length (2 to the 32 or more) is constructed. -/
inductive JsErr where
  | rangeError
deriving DecidableEq, Repr

/-- Array.from with an array-like of the given length property and a mapping
function over indices. Constructing the target array throws RangeError when
the coerced length is not a valid array length. -/
def jsArrayFrom {α : Type} (n : JNum) (f : ℕ → α) : Except JsErr (List α) :=
  if 2 ^ 32 ≤ toLength n then .error .rangeError
  else .ok ((List.range (toLength n)).map f)

/-- Strict equality on JavaScript numbers: NaN is not equal to anything. -/
def jnumSEq : JNum → JNum → Bool
  | .nan, _ => false
  | _, .nan => false
  | .inf, .inf => true
  | .ninf, .ninf => true
  | .val p, .val q => p == q
  | _, _ => false

/-- JavaScript strict equality on scalar values (no coercion). -/
def jsStrictEq : JVal → JVal → Bool
  | .undefined, .undefined => true
  | .null, .null => true
  | .bool a, .bool b => a == b
  | .num m, .num n => jnumSEq m n
  | .str a, .str b => a == b
  | _, _ => false

/-- A record (Polish, Tool or Manicure) as a JavaScript object: an association
list of field names to scalar values. Concrete objects built by the app have
pairwise distinct keys. -/
abbrev JObj := List (String × JVal)

/-- Property read: o.k, giving undefined for a missing key. -/
def jget (o : JObj) (k : String) : JVal :=
  match o.lookup k with
  | some v => v
  | none => .undefined

/-- Object spread merge ... p, ... u : the keys of p in order, values
overridden by u where present, followed by the keys of u not in p. -/
def jmerge (p u : JObj) : JObj :=
  (p.map (fun kv => match u.lookup kv.1 with | some v => (kv.1, v) | none => kv)) ++
    u.filter (fun kv => (p.lookup kv.1).isNone)

/-- The fully populated settings value produced by the normalizer, as stored in
the state (source lines 29 to 36). -/
structure Settings where
  colorTheme : JVal
  wallCount : JNum
  shelvesPerWall : JNum
  slotsPerShelf : JNum
  wallNames : List String
  syncKey : String
deriving DecidableEq, Repr

/-- An arbitrary input to normalizeSettings: every scalar field may hold any
JavaScript value; absent fields are undefined. wallNames is some list exactly
when the field holds an array (its entries modelled as strings). The whole
input object may itself be null or undefined, modelled as none at the call
site via Option SettingsInput. -/
structure SettingsInput where
  wallCount : JVal := .undefined
  shelvesPerWall : JVal := .undefined
  slotsPerShelf : JVal := .undefined
  wallNames : Option (List String) := none
  colorTheme : JVal := .undefined
  syncKey : JVal := .undefined
deriving DecidableEq, Repr

/-- Optional-chaining field access s?.f on a possibly nullish settings object. -/
def getF (s : Option SettingsInput) (f : SettingsInput → JVal) : JVal :=
  match s with
  | none => .undefined
  | some si => f si

/-- Source line 20: labelForIndex. Letters A..Z for the first 26 indices, then
W27, W28 and so on. -/
def labelForIndex (i : ℕ) : String :=
  if i < 26 then String.singleton (Char.ofNat (65 + i)) else "W" ++ toString (i + 1)

/-- Source line 24: Math.max(1, Number(s?.wallCount ?? 2)). -/
def normWallCount (s : Option SettingsInput) : JNum :=
  jsMax1 (toNumber (jsCoalesce (getF s SettingsInput.wallCount) (.num (.val 2))))

/-- Source line 25: Math.max(1, Number(s?.shelvesPerWall ?? 8)). -/
def normShelves (s : Option SettingsInput) : JNum :=
  jsMax1 (toNumber (jsCoalesce (getF s SettingsInput.shelvesPerWall) (.num (.val 8))))

/-- Source line 26: Math.max(1, Number(s?.slotsPerShelf ?? 21)). -/
def normSlots (s : Option SettingsInput) : JNum :=
  jsMax1 (toNumber (jsCoalesce (getF s SettingsInput.slotsPerShelf) (.num (.val 21))))

/-- Source line 27: Array.isArray(s?.wallNames) ? s.wallNames :
defaultWallNames(wallCount), where defaultWallNames builds labels with
Array.from (source line 21). -/
def normExisting (s : Option SettingsInput) : Except JsErr (List String) :=
  match s.bind SettingsInput.wallNames with
  | some names => .ok names
  | none => jsArrayFrom (normWallCount s) labelForIndex

/-- Source line 28, the per-index entry: (existing[i] &&
String(existing[i]).trim()) || labelForIndex(i). -/
def wallEntry (existing : List String) (i : ℕ) : String :=
  let t := jsStrTrim (existing.getD i "")
  if t = "" then labelForIndex i else t

/-- Source lines 23 to 37: normalizeSettings. Returns an error exactly when one
of its two Array.from calls throws RangeError. -/
def normalizeSettings (s : Option SettingsInput) : Except JsErr Settings := do
  let existing ← normExisting s
  let wallNames ← jsArrayFrom (normWallCount s) (wallEntry existing)
  .ok {
    colorTheme := jsCoalesce (getF s SettingsInput.colorTheme) (.str "vivid")
    wallCount := normWallCount s
    shelvesPerWall := normShelves s
    slotsPerShelf := normSlots s
    wallNames := wallNames
    syncKey := match getF s SettingsInput.syncKey with | .str k => k | _ => "" }

/-- Source lines 53 to 60: defaultSettings. -/
def defaultSettings : Settings :=
  { colorTheme := .str "vivid"
    wallCount := .val 2
    shelvesPerWall := .val 8
    slotsPerShelf := .val 21
    wallNames := ["A", "B"]
    syncKey := "" }

/-- The application state (source lines 62 to 68). The extra meta field is not
part of the documented state shape; it is none initially and becomes a list
only through a hydrate/partial dispatch from the remote meta feed. -/
structure AppState where
  polishes : List JObj
  tools : List JObj
  manis : List JObj
  settings : Settings
  createdAt : JVal
  meta : Option (List JObj) := none
deriving DecidableEq, Repr

/-- Source lines 62 to 68: initialState, with t the value of Date.now() at
module initialization. -/
def initialState (t : JVal) : AppState :=
  { polishes := [], tools := [], manis := [], settings := defaultSettings, createdAt := t }

/-- Payload of a hydrate/partial action: top-level fields to shallow-merge into
the state; none means the key is absent from the payload object. -/
structure StatePatch where
  polishes : Option (List JObj) := none
  tools : Option (List JObj) := none
  manis : Option (List JObj) := none
  settings : Option Settings := none
  createdAt : Option JVal := none
  meta : Option (List JObj) := none
deriving DecidableEq, Repr

/-- Source line 75: the spread merge of a hydrate/partial payload over the
state. -/
def applyPatch (s : AppState) (p : StatePatch) : AppState :=
  { polishes := p.polishes.getD s.polishes
    tools := p.tools.getD s.tools
    manis := p.manis.getD s.manis
    settings := p.settings.getD s.settings
    createdAt := p.createdAt.getD s.createdAt
    meta := match p.meta with | some m => some m | none => s.meta }

/-- Payload of a settings/update action: the fields of the partial settings
object; none means the key is absent. -/
structure SettingsPatch where
  wallCount : Option JVal := none
  shelvesPerWall : Option JVal := none
  slotsPerShelf : Option JVal := none
  wallNames : Option (Option (List String)) := none
  colorTheme : Option JVal := none
  syncKey : Option JVal := none
deriving DecidableEq, Repr

/-- Source line 77: the spread merge of the settings patch over the current
settings object, as handed to normalizeSettings. -/
def mergeSettings (st : Settings) (p : SettingsPatch) : SettingsInput :=
  { wallCount := p.wallCount.getD (.num st.wallCount)
    shelvesPerWall := p.shelvesPerWall.getD (.num st.shelvesPerWall)
    slotsPerShelf := p.slotsPerShelf.getD (.num st.slotsPerShelf)
    wallNames := p.wallNames.getD (some st.wallNames)
    colorTheme := p.colorTheme.getD st.colorTheme
    syncKey := p.syncKey.getD (.str st.syncKey) }

/-- The reducer actions (source lines 70 to 101). The unknown constructor is
the default switch case. -/
inductive Action where
  | hydrate (payload : AppState)
  | hydratePartial (payload : StatePatch)
  | settingsUpdate (payload : SettingsPatch)
  | polishAdd (payload : JObj)
  | polishUpdate (payload : JObj)
  | polishDelete (id : JVal)
  | toolAdd (payload : JObj)
  | toolUpdate (payload : JObj)
  | toolDelete (id : JVal)
  | maniAdd (payload : JObj)
  | maniUpdate (payload : JObj)
  | maniDelete (id : JVal)
  | reset
  | unknown

/-- The body of an {entity}/update case: replace entries whose id strictly
equals the payload id by the spread merge of the payload over the entry. -/
def updList (l : List JObj) (r : JObj) : List JObj :=
  l.map (fun p => if jsStrictEq (jget p "id") (jget r "id") then jmerge p r else p)

/-- The body of an {entity}/delete case: keep entries whose id is strictly
unequal to the action id. -/
def delList (l : List JObj) (i : JVal) : List JObj :=
  l.filter (fun p => !(jsStrictEq (jget p "id") i))

/-- Source lines 70 to 101: the domain reducer. t0 is the Date.now() captured
by initialState at module load, returned by reset. The settings/update case
propagates the RangeError the normalizer can throw; every other case is pure. -/
def reducer (t0 : JVal) (state : AppState) (action : Action) : Except JsErr AppState :=
  match action with
  | .hydrate payload => .ok payload
  | .hydratePartial payload => .ok (applyPatch state payload)
  | .settingsUpdate payload =>
      (normalizeSettings (some (mergeSettings state.settings payload))).map
        (fun ns => { state with settings := ns })
  | .polishAdd payload => .ok { state with polishes := payload :: state.polishes }
  | .polishUpdate payload => .ok { state with polishes := updList state.polishes payload }
  | .polishDelete i => .ok { state with polishes := delList state.polishes i }
  | .toolAdd payload => .ok { state with tools := payload :: state.tools }
  | .toolUpdate payload => .ok { state with tools := updList state.tools payload }
  | .toolDelete i => .ok { state with tools := delList state.tools i }
  | .maniAdd payload => .ok { state with manis := payload :: state.manis }
  | .maniUpdate payload => .ok { state with manis := updList state.manis payload }
  | .maniDelete i => .ok { state with manis := delList state.manis i }
  | .reset => .ok (initialState t0)
  | .unknown => .ok state

/-- The three record collections. -/
inductive RecColl where
  | polishes
  | tools
  | manis
deriving DecidableEq, Repr

/-- Read one record collection of the state. -/
def AppState.coll (s : AppState) : RecColl → List JObj
  | .polishes => s.polishes
  | .tools => s.tools
  | .manis => s.manis

/-- Replace one record collection of the state. -/
def AppState.setColl (s : AppState) : RecColl → List JObj → AppState
  | .polishes, l => { s with polishes := l }
  | .tools, l => { s with tools := l }
  | .manis, l => { s with manis := l }

/-- The add, update and delete operations shared by the three entity kinds. -/
inductive EntityOp where
  | add (r : JObj)
  | upd (r : JObj)
  | del (i : JVal)

/-- The reducer action for an entity operation on a given collection. -/
def entityAction : RecColl → EntityOp → Action
  | .polishes, .add r => .polishAdd r
  | .polishes, .upd r => .polishUpdate r
  | .polishes, .del i => .polishDelete i
  | .tools, .add r => .toolAdd r
  | .tools, .upd r => .toolUpdate r
  | .tools, .del i => .toolDelete i
  | .manis, .add r => .maniAdd r
  | .manis, .upd r => .maniUpdate r
  | .manis, .del i => .maniDelete i

/-- The four remote feeds the cloud-sync hook subscribes to (source lines 260
to 265). -/
inductive FeedName where
  | polishes
  | tools
  | manis
  | meta
deriving DecidableEq, Repr

/-- The feed for a record collection. -/
def feedOf : RecColl → FeedName
  | .polishes => .polishes
  | .tools => .tools
  | .manis => .manis

/-- Source lines 251 to 259: the payload a snapshot listener dispatches, the
object with the single computed key name holding the snapshot items. -/
def listenerPayload : FeedName → List JObj → StatePatch
  | .polishes, items => { polishes := some items }
  | .tools, items => { tools := some items }
  | .manis, items => { manis := some items }
  | .meta, items => { meta := some items }

/-- The object literal spread over the settings that both push sites build
(source lines 269 to 273 and 298 to 303): all settings fields, with the
syncKey property overwritten by undefined. -/
structure PushedSettings where
  colorTheme : JVal
  wallCount : JNum
  shelvesPerWall : JNum
  slotsPerShelf : JNum
  wallNames : List String
  syncKey : JVal
deriving DecidableEq, Repr

/-- Source: the spread ... state.settings, syncKey: undefined used by both
settings pushes of useCloudSync. -/
def pushSettingsObj (st : Settings) : PushedSettings :=
  { colorTheme := st.colorTheme
    wallCount := st.wallCount
    shelvesPerWall := st.shelvesPerWall
    slotsPerShelf := st.slotsPerShelf
    wallNames := st.wallNames
    syncKey := .undefined }

/-- The settings document as transmitted to the remote store; a none syncKey
means the document carries no sync key field. -/
structure WireSettings where
  colorTheme : JVal
  wallCount : JNum
  shelvesPerWall : JNum
  slotsPerShelf : JNum
  wallNames : List String
  syncKey : Option JVal
deriving DecidableEq, Repr

/-- Modelled from the spec: the serialization performed by the remote store
client (the setDoc collaborator of the firebase module, which is not under
src) omits object fields whose value is undefined, so a field set to undefined
is absent from the transmitted document; all other fields are transmitted
unchanged. -/
def transmitSettings (p : PushedSettings) : WireSettings :=
  { colorTheme := p.colorTheme
    wallCount := p.wallCount
    shelvesPerWall := p.shelvesPerWall
    slotsPerShelf := p.slotsPerShelf
    wallNames := p.wallNames
    syncKey := if p.syncKey = .undefined then none else some p.syncKey }

/-- JSON serialization then parsing of a scalar value inside an array or an
object: NaN and the infinities become null, everything else round-trips. -/
def sanVal (v : JVal) : JVal :=
  match v with
  | .num .nan => .null
  | .num .inf => .null
  | .num .ninf => .null
  | x => x

/-- JSON serialization then parsing of a record: keys holding undefined are
dropped, remaining values sanitized. -/
def sanObj (o : JObj) : JObj :=
  (o.filter (fun kv => kv.2 ≠ .undefined)).map (fun kv => (kv.1, sanVal kv.2))

/-- A JavaScript number as it comes back from a JSON round trip. -/
def jnumJson (n : JNum) : JVal :=
  match n with
  | .nan => .null
  | .inf => .null
  | .ninf => .null
  | .val q => .num (.val q)

/-- The settings object of an exported backup as the boot path reads it back:
the input normalizeSettings receives after JSON round trip. -/
def sanSettings (st : Settings) : SettingsInput :=
  { wallCount := jnumJson st.wallCount
    shelvesPerWall := jnumJson st.shelvesPerWall
    slotsPerShelf := jnumJson st.slotsPerShelf
    wallNames := some st.wallNames
    colorTheme := sanVal st.colorTheme
    syncKey := .str st.syncKey }

/-- The backup round trip: exportData writes JSON.stringify(state) (source
lines 1088 to 1096); importData parses it, stores it under the persistence key
and reloads (source lines 1097 to 1106); on boot, usePersistentState parses
the stored blob, spreads it over initialState, renormalizes the settings and
hydrates (source lines 202 to 216). tboot is Date.now() at the reload, used
only if the backup lacks a createdAt key. -/
def backupRoundTrip (tboot : JVal) (s : AppState) : Except JsErr AppState := do
  let ns ← normalizeSettings (some (sanSettings s.settings))
  .ok {
    polishes := s.polishes.map sanObj
    tools := s.tools.map sanObj
    manis := s.manis.map sanObj
    settings := ns
    createdAt := if s.createdAt = .undefined then tboot else sanVal s.createdAt
    meta := s.meta.map (fun l => l.map sanObj) }

/-- C1 claim predicate: the normalizer output exists and is fully valid, with
all three counts at least 1 (in the JavaScript ordering, where NaN is not at
least 1) and the wall name list length strictly equal to the wall count. -/
def jnumGe1 : JNum → Bool
  | .val q => decide ((1 : ℚ) ≤ q)
  | .inf => true
  | _ => false

/-- C1 claim predicate over an arbitrary normalizer input. -/
def settingsClaimValid (s : Option SettingsInput) : Bool :=
  match normalizeSettings s with
  | .error _ => false
  | .ok st =>
      jnumGe1 st.wallCount && jnumGe1 st.shelvesPerWall && jnumGe1 st.slotsPerShelf &&
        jnumSEq st.wallCount (.val (st.wallNames.length : ℚ))

/-- The wall count computed by the normalizer is a finite integer between 1
and 2 to the 32 exclusive. -/
def isIntCountLt32 (n : JNum) : Bool :=
  match n with
  | .val q => q.den == 1 && decide ((1 : ℚ) ≤ q) && decide (q.num < 2 ^ 32)
  | _ => false

/-- The existing-names list the normalizer reads: the input wallNames when it
is an array, otherwise the generated labels (source line 27). -/
def existingList (s : Option SettingsInput) : List String :=
  (s.bind SettingsInput.wallNames).getD
    ((List.range (toLength (normWallCount s))).map labelForIndex)

/-- C4 claim-side definition, following the words of the claim: entry i is the
existing name at index i when it is present and non-blank after trimming, and
otherwise the generated label. -/
def wallNamesSpec (existing : List String) (count : ℕ) : List String :=
  (List.range count).map (fun i =>
    if jsStrTrim (existing.getD i "") ≠ "" then existing.getD i "" else labelForIndex i)

/-- Input used by the C4 witness. -/
def c4Inp : Option SettingsInput :=
  some { wallCount := .num (.val 2), wallNames := some ["X", " "] }

/-- Normalizer output on the C4 witness input. -/
def c4St : Settings :=
  { colorTheme := .str "vivid", wallCount := .val 2, shelvesPerWall := .val 8,
    slotsPerShelf := .val 21, wallNames := ["X", "B"], syncKey := "" }

/-- Recognizer for settings/update actions, the single reducer case that can
throw. -/
def isSettingsUpdate : Action → Bool
  | .settingsUpdate _ => true
  | _ => false

/-- A scalar value that survives a JSON round trip unchanged and is not
nullish (so the colorTheme coalescing keeps it). -/
def jvalNonNullJson (v : JVal) : Bool :=
  match v with
  | .undefined => false
  | .null => false
  | .num .nan => false
  | .num .inf => false
  | .num .ninf => false
  | _ => true

/-- Settings satisfying the documented data model invariants: integral counts
at least 1 (the wall count a valid array length), wall name list length equal
to the wall count, names trimmed and non-blank, a JSON-safe non-nullish color
theme. These are fixed points of the boot-path renormalization. -/
def settingsRTSafe (st : Settings) : Bool :=
  (match st.wallCount with
   | .val q => q.den == 1 && decide ((1 : ℚ) ≤ q) && decide (q.num < 2 ^ 32) &&
       q.num == (st.wallNames.length : ℤ)
   | _ => false) &&
  (match st.shelvesPerWall with | .val q => decide ((1 : ℚ) ≤ q) | _ => false) &&
  (match st.slotsPerShelf with | .val q => decide ((1 : ℚ) ≤ q) | _ => false) &&
  st.wallNames.all (fun nm => jsStrTrim nm == nm && !(nm == "")) &&
  jvalNonNullJson st.colorTheme

/-- A record whose fields survive a JSON round trip unchanged (no undefined
values, no NaN or infinite numbers). -/
def objRTSafe (o : JObj) : Bool := sanObj o == o

/-- An AppState conforming to the documented data model: JSON-representable
records, valid normalized settings, a JSON-safe creation timestamp. -/
def stateRTSafe (s : AppState) : Bool :=
  settingsRTSafe s.settings && s.polishes.all objRTSafe && s.tools.all objRTSafe &&
    s.manis.all objRTSafe &&
    (match s.meta with | none => true | some l => l.all objRTSafe) &&
    !(s.createdAt == .undefined) && sanVal s.createdAt == s.createdAt

/-- State used by the C3 witness. -/
def s3 : AppState :=
  { polishes := [[("id", .str "x"), ("name", .str "N")], [("id", .str "y")]]
    tools := [], manis := [], settings := defaultSettings, createdAt := .num (.val 0) }

/-- The polish record of the C8 scenario. -/
def p1Rec : JObj :=
  [("id", .str "p1"), ("brand", .str "OPI"), ("name", .str "Bubble Bath"),
   ("finish", .str "cream"), ("wall", .str "A"), ("shelf", .num (.val 1)),
   ("position", .num (.val 1))]

/-- State used by the C7 witness. -/
def s7 : AppState :=
  { polishes := [[("id", .str "p7"), ("brand", .str "OPI")]]
    tools := [], manis := [], settings := defaultSettings, createdAt := .num (.val 42) }


theorem map_if_filter {α : Type} (l : List α) (c : α → Bool) (f : α → α) :
    (l.filter (fun p => !(c p))).map (fun p => if c p then f p else p) =
      l.filter (fun p => !(c p)) := by
  induction l with
  | nil => rfl
  | cons a t ih => cases h : c a <;> simp [List.filter_cons, h, ih]

theorem getD_map_range {α : Type} (f : ℕ → α) (d : α) {n i : ℕ} (h : i < n) :
    ((List.range n).map f).getD i d = f i := by
  have hl : i < ((List.range n).map f).length := by simpa
  rw [List.getD_eq_getElem _ _ hl]
  simp

theorem normalizeSettings_eq (s : Option SettingsInput)
    (h : toLength (normWallCount s) < 2 ^ 32) :
    normalizeSettings s = .ok
      { colorTheme := jsCoalesce (getF s SettingsInput.colorTheme) (.str "vivid")
        wallCount := normWallCount s
        shelvesPerWall := normShelves s
        slotsPerShelf := normSlots s
        wallNames := (List.range (toLength (normWallCount s))).map (wallEntry (existingList s))
        syncKey := match getF s SettingsInput.syncKey with | .str k => k | _ => "" } := by
  have hb : ¬ (4294967296 : ℕ) ≤ toLength (normWallCount s) := by
    norm_num at h
    omega
  unfold normalizeSettings normExisting existingList jsArrayFrom
  cases hw : s.bind SettingsInput.wallNames <;>
    simp [hw, hb, Except.bind, Bind.bind]

theorem toLength_val_int {q : ℚ} (hden : q.den = 1) (hge : (1 : ℚ) ≤ q)
    (hlt : q.num < 2 ^ 32) :
    toLength (.val q) = q.num.toNat ∧ q.num.toNat < 2 ^ 32 ∧
      ((q.num.toNat : ℕ) : ℚ) = q := by
  have hq0 : ¬ q ≤ 0 := by intro hle; linarith
  have hnum : (q.num : ℚ) = q := (Rat.den_eq_one_iff q).mp hden
  have hnn : 0 ≤ q.num := by
    have hq : (0 : ℚ) < q := by linarith
    exact le_of_lt (Rat.num_pos.mpr hq)
  have hcast : ((q.num.toNat : ℕ) : ℚ) = q := by
    rw [← hnum]
    norm_cast
    omega
  have hlt2 : q.num.toNat < 2 ^ 32 := by
    norm_num at hlt ⊢
    omega
  refine ⟨?_, hlt2, hcast⟩
  have hfl : Rat.floor q = q.num := by simp [Rat.floor, hden]
  have hle53 : q.num.toNat ≤ 2 ^ 53 - 1 := by
    have h32 : (2 : ℕ) ^ 32 ≤ 2 ^ 53 - 1 := by norm_num
    exact le_trans (le_of_lt hlt2) h32
  simp only [toLength]
  rw [if_neg hq0, hfl]
  exact Nat.min_eq_left hle53

theorem map_range_wallEntry (names : List String)
    (h : ∀ x ∈ names, jsStrTrim x = x ∧ x ≠ "") :
    (List.range names.length).map (wallEntry names) = names := by
  apply List.ext_getElem
  · simp
  · intro i h1 h2
    simp only [List.getElem_map, List.getElem_range]
    have hmem : names[i] ∈ names := List.getElem_mem h2
    obtain ⟨htr, hne⟩ := h _ hmem
    have hgd : names.getD i "" = names[i] := List.getD_eq_getElem _ _ h2
    simp only [wallEntry]
    rw [hgd, htr]
    simp [hne]

theorem map_sanObj_of_all (l : List JObj) (h : l.all objRTSafe = true) :
    l.map sanObj = l := by
  induction l with
  | nil => rfl
  | cons a t ih =>
    rw [List.all_cons, Bool.and_eq_true] at h
    have ha : sanObj a = a := by
      have h1 := h.1
      rwa [objRTSafe, beq_iff_eq] at h1
    simp [ha, ih h.2]

theorem coalesce_sanVal (v : JVal) (h : jvalNonNullJson v = true) :
    jsCoalesce (sanVal v) (.str "vivid") = v := by
  cases v with
  | undefined => simp [jvalNonNullJson] at h
  | null => simp [jvalNonNullJson] at h
  | bool b => rfl
  | str s => rfl
  | num n =>
    cases n with
    | nan => simp [jvalNonNullJson] at h
    | inf => simp [jvalNonNullJson] at h
    | ninf => simp [jvalNonNullJson] at h
    | val q => rfl

theorem jnumGe1_max1 (x : JNum) (h : jsMax1 x ≠ .nan) : jnumGe1 (jsMax1 x) = true := by
  cases x with
  | nan => exact absurd rfl h
  | inf => rfl
  | ninf => simp [jsMax1, jnumGe1]
  | val q => simp [jsMax1, jnumGe1, le_max_left]

theorem normalizeSettings_ok_bound (s : Option SettingsInput) (st : Settings)
    (h : normalizeSettings s = .ok st) : toLength (normWallCount s) < 2 ^ 32 := by
  by_contra hb
  push_neg at hb
  norm_num at hb
  unfold normalizeSettings normExisting jsArrayFrom at h
  cases hw : s.bind SettingsInput.wallNames <;> rw [hw] at h <;>
    simp [hb, Except.bind, Bind.bind] at h

theorem normalizeSettings_sanSettings (st : Settings) (h : settingsRTSafe st = true) :
    normalizeSettings (some (sanSettings st)) = .ok st := by
  obtain ⟨ct, wc, sh, sl, wn, sk⟩ := st
  simp only [settingsRTSafe, Bool.and_eq_true] at h
  obtain ⟨⟨⟨⟨hwc, hsh⟩, hsl⟩, hwn⟩, hct⟩ := h
  cases wc with
  | nan => simp at hwc
  | inf => simp at hwc
  | ninf => simp at hwc
  | val q =>
  cases sh with
  | nan => simp at hsh
  | inf => simp at hsh
  | ninf => simp at hsh
  | val q2 =>
  cases sl with
  | nan => simp at hsl
  | inf => simp at hsl
  | ninf => simp at hsl
  | val q3 =>
  simp only [Bool.and_eq_true, beq_iff_eq, decide_eq_true_eq] at hwc hsh hsl
  obtain ⟨⟨⟨hden, hge⟩, hlt⟩, hnumlen⟩ := hwc
  have hwn2 : ∀ x ∈ wn, jsStrTrim x = x ∧ x ≠ "" := by
    intro x hx
    have := List.all_eq_true.mp hwn x hx
    rw [Bool.and_eq_true, beq_iff_eq, Bool.not_eq_true', beq_eq_false_iff_ne] at this
    exact this
  have hwcEq :
      normWallCount (some (sanSettings ⟨ct, .val q, .val q2, .val q3, wn, sk⟩)) = .val q := by
    simp [normWallCount, sanSettings, getF, jnumJson, jsCoalesce, toNumber, jsMax1,
      max_eq_right hge]
  obtain ⟨htl, hlt2, hcast⟩ := toLength_val_int hden hge hlt
  have hlen :
      toLength (normWallCount (some (sanSettings ⟨ct, .val q, .val q2, .val q3, wn, sk⟩))) <
        2 ^ 32 := by
    rw [hwcEq, htl]
    exact hlt2
  rw [normalizeSettings_eq _ hlen]
  have htn : q.num.toNat = wn.length := by
    rw [hnumlen]
    omega
  congr 1
  simp only [Settings.mk.injEq]
  refine ⟨?_, hwcEq, ?_, ?_, ?_, ?_⟩
  · show jsCoalesce (sanVal ct) (.str "vivid") = ct
    exact coalesce_sanVal ct hct
  · simp [normShelves, sanSettings, getF, jnumJson, jsCoalesce, toNumber, jsMax1,
      max_eq_right hsh]
  · simp [normSlots, sanSettings, getF, jnumJson, jsCoalesce, toNumber, jsMax1,
      max_eq_right hsl]
  · have hex :
        existingList (some (sanSettings ⟨ct, .val q, .val q2, .val q3, wn, sk⟩)) = wn := by
      simp [existingList, sanSettings]
    rw [hex, hwcEq, htl, htn]
    exact map_range_wallEntry wn hwn2
  · rfl

/-- C1 counterexample: the normalizer output is not always valid. On the
partial settings object with wallCount "abc" the output wallCount is NaN (not
at least 1) and the name list is empty (its length is not strictly equal to
NaN); on wallCount five billion the normalizer throws RangeError instead of
producing a result. -/
theorem c1_counterexample :
    settingsClaimValid (some { wallCount := .str "abc" }) = false ∧
    normalizeSettings
        (some { wallCount := .num (.val 5000000000), wallNames := some ["A", "B"] }) =
      .error .rangeError :=
  ⟨by decide, by decide⟩

/-- C1 amended: for every partial settings input whose wall count coerces
(after nullish defaulting and clamping) to a finite integer below 2 to the 32
and whose shelf and slot counts do not coerce to NaN, the normalizer succeeds
and its output has all three counts at least 1 and a wall name list whose
length strictly equals the wall count. -/
theorem c1_normalizer_valid_amended (s : Option SettingsInput)
    (h1 : isIntCountLt32 (normWallCount s) = true)
    (h2 : normShelves s ≠ .nan)
    (h3 : normSlots s ≠ .nan) :
    settingsClaimValid s = true := by
  cases hwc : normWallCount s with
  | nan => rw [hwc] at h1; simp [isIntCountLt32] at h1
  | inf => rw [hwc] at h1; simp [isIntCountLt32] at h1
  | ninf => rw [hwc] at h1; simp [isIntCountLt32] at h1
  | val q =>
    rw [hwc] at h1
    simp only [isIntCountLt32, Bool.and_eq_true, beq_iff_eq, decide_eq_true_eq] at h1
    obtain ⟨⟨hden, hge⟩, hlt⟩ := h1
    obtain ⟨htl, hlt2, hcast⟩ := toLength_val_int hden hge hlt
    have hlen : toLength (normWallCount s) < 2 ^ 32 := by rw [hwc, htl]; exact hlt2
    unfold settingsClaimValid
    rw [normalizeSettings_eq s hlen]
    simp only [Bool.and_eq_true]
    refine ⟨⟨⟨?_, ?_⟩, ?_⟩, ?_⟩
    · rw [hwc]
      simp [jnumGe1, hge]
    · exact jnumGe1_max1 _ h2
    · exact jnumGe1_max1 _ h3
    · rw [hwc]
      simp only [List.length_map, List.length_range, hwc, htl]
      simp [jnumSEq, hcast]

theorem c1_normalizer_valid_amended_witness :
    isIntCountLt32 (normWallCount (some {})) = true ∧
    normShelves (some {}) ≠ .nan ∧ normSlots (some {}) ≠ .nan ∧
    settingsClaimValid (some {}) = true :=
  ⟨by decide, by decide, by decide,
    c1_normalizer_valid_amended (some {}) (by decide) (by decide) (by decide)⟩

/-- C2: dispatching the hydrate/partial action built by a remote snapshot
listener replaces the corresponding local collection wholesale with the
snapshot items, for every state; in particular an empty polishes snapshot
empties the local polishes collection regardless of local contents. -/
theorem c2_remote_snapshot_replaces_collection :
    (∀ (t0 : JVal) (s : AppState) (k : RecColl) (items : List JObj),
        reducer t0 s (.hydratePartial (listenerPayload (feedOf k) items)) =
          .ok (s.setColl k items)) ∧
    (∀ (t0 : JVal) (s : AppState),
        (reducer t0 s (.hydratePartial (listenerPayload .polishes []))).map
            AppState.polishes = .ok ([] : List JObj)) := by
  refine ⟨fun t0 s k items => ?_, fun t0 s => rfl⟩
  cases k <;> rfl

/-- C3: for every state, identifier and entity kind, deleting a record and
then dispatching an update whose payload carries that same identifier leaves
the state exactly as after the delete alone: the update matches nothing and
does not resurrect the record. -/
theorem c3_update_after_delete_is_noop :
    ∀ (t0 : JVal) (s : AppState) (k : RecColl) (i : JVal) (r : JObj),
      jget r "id" = i →
      (reducer t0 s (entityAction k (.del i))).bind
          (fun s1 => reducer t0 s1 (entityAction k (.upd r))) =
        reducer t0 s (entityAction k (.del i)) := by
  intro t0 s k i r h
  subst h
  cases k <;> simp [reducer, entityAction, Except.bind, updList, delList, map_if_filter]

theorem c3_update_after_delete_is_noop_witness :
    jget [("id", .str "x"), ("note", .str "n")] "id" = .str "x" ∧
    (reducer (.num (.val 0)) s3 (entityAction .polishes (.del (.str "x")))).bind
        (fun s1 => reducer (.num (.val 0)) s1
          (entityAction .polishes (.upd [("id", .str "x"), ("note", .str "n")]))) =
      reducer (.num (.val 0)) s3 (entityAction .polishes (.del (.str "x"))) :=
  ⟨by decide, c3_update_after_delete_is_noop (.num (.val 0)) s3 .polishes (.str "x")
    [("id", .str "x"), ("note", .str "n")] (by decide)⟩

/-- C4 counterexample: the claim says entry i is the existing name itself when
present and non-blank after trimming, but on input wallNames [" A "] the code
stores the trimmed name "A", not " A ". -/
theorem c4_counterexample :
    (normalizeSettings (some { wallCount := .num (.val 1), wallNames := some [" A "] })).map
        Settings.wallNames = .ok ["A"] ∧
    wallNamesSpec [" A "] 1 = [" A "] ∧
    (["A"] : List String) ≠ [" A "] :=
  ⟨by decide, by decide, by decide⟩

/-- C4 amended: the normalized wall name list is built index by index; entry i
is the trimmed existing name at index i when that trim is non-blank, and
otherwise the generated label (A..Z then W27, W28, ...); dispatching
settings/update with wallCount 3 on the default settings yields wall names
A, B, C. -/
theorem c4_wall_names_amended :
    (∀ (s : Option SettingsInput) (names : List String) (st : Settings),
        s.bind SettingsInput.wallNames = some names →
        normalizeSettings s = .ok st →
        ∀ i, i < st.wallNames.length →
          st.wallNames.getD i "" =
            (if jsStrTrim (names.getD i "") = "" then labelForIndex i
             else jsStrTrim (names.getD i ""))) ∧
    (∀ t : JVal,
        (reducer t (initialState t)
            (.settingsUpdate { wallCount := some (.num (.val 3)) })).map
            (fun s2 => s2.settings.wallNames) = .ok ["A", "B", "C"]) := by
  constructor
  · intro s names st hw h
    have hb := normalizeSettings_ok_bound s st h
    rw [normalizeSettings_eq s hb] at h
    injection h with h2
    subst h2
    intro i hi
    simp only [List.length_map, List.length_range] at hi
    rw [getD_map_range _ _ hi]
    have hex : existingList s = names := by simp [existingList, hw]
    rw [hex]
    rfl
  · intro t
    rfl

theorem c4_wall_names_amended_witness :
    c4Inp.bind SettingsInput.wallNames = some ["X", " "] ∧
    normalizeSettings c4Inp = .ok c4St ∧ 1 < c4St.wallNames.length ∧
    c4St.wallNames.getD 1 "" =
      (if jsStrTrim ((["X", " "] : List String).getD 1 "") = "" then labelForIndex 1
       else jsStrTrim ((["X", " "] : List String).getD 1 "")) :=
  ⟨by decide, by decide, by decide,
    c4_wall_names_amended.1 c4Inp ["X", " "] c4St (by decide) (by decide) 1 (by decide)⟩

/-- C5: the settings object pushed to the remote settings slot (identically
built on activation and on every later local change) is transmitted with no
sync key field, while every other settings field is transmitted unchanged. -/
theorem c5_settings_push_strips_sync_key :
    ∀ st : Settings,
      (transmitSettings (pushSettingsObj st)).syncKey = none ∧
      (transmitSettings (pushSettingsObj st)).colorTheme = st.colorTheme ∧
      (transmitSettings (pushSettingsObj st)).wallCount = st.wallCount ∧
      (transmitSettings (pushSettingsObj st)).shelvesPerWall = st.shelvesPerWall ∧
      (transmitSettings (pushSettingsObj st)).slotsPerShelf = st.slotsPerShelf ∧
      (transmitSettings (pushSettingsObj st)).wallNames = st.wallNames :=
  fun _ => ⟨rfl, rfl, rfl, rfl, rfl, rfl⟩

/-- C6 counterexample: the transition is not total. From the default state,
settings/update with wallCount five billion makes the normalizer construct an
array of invalid length, so the dispatch throws RangeError. -/
theorem c6_counterexample :
    reducer (.num (.val 0)) (initialState (.num (.val 0)))
        (.settingsUpdate { wallCount := some (.num (.val 5000000000)) }) =
      .error .rangeError := by
  decide

/-- C6 amended: every action other than settings/update always returns a new
state without throwing, and settings/update does so whenever the merged wall
count coerces to a length below 2 to the 32; no transition mutates the
previous state, which holds by construction in this purely functional model. -/
theorem c6_reducer_total_amended :
    (∀ (t0 : JVal) (s : AppState) (a : Action), isSettingsUpdate a = false →
        (reducer t0 s a).isOk = true) ∧
    (∀ (t0 : JVal) (s : AppState) (p : SettingsPatch),
        toLength (normWallCount (some (mergeSettings s.settings p))) < 2 ^ 32 →
        (reducer t0 s (.settingsUpdate p)).isOk = true) := by
  constructor
  · intro t0 s a ha
    cases a <;> first | rfl | simp [isSettingsUpdate] at ha
  · intro t0 s p hp
    show ((normalizeSettings (some (mergeSettings s.settings p))).map
        (fun ns => ({ s with settings := ns } : AppState))).isOk = true
    rw [normalizeSettings_eq _ hp]
    rfl

theorem c6_reducer_total_amended_witness :
    isSettingsUpdate (.polishAdd [("id", .str "w6")]) = false ∧
    (reducer (.num (.val 0)) (initialState (.num (.val 0)))
        (.polishAdd [("id", .str "w6")])).isOk = true ∧
    toLength (normWallCount (some (mergeSettings (initialState (.num (.val 0))).settings {}))) <
      2 ^ 32 ∧
    (reducer (.num (.val 0)) (initialState (.num (.val 0))) (.settingsUpdate {})).isOk = true :=
  ⟨by decide, c6_reducer_total_amended.1 (.num (.val 0)) (initialState (.num (.val 0)))
      (.polishAdd [("id", .str "w6")]) (by decide), by decide,
    c6_reducer_total_amended.2 (.num (.val 0)) (initialState (.num (.val 0))) {} (by decide)⟩

/-- C7: for every state conforming to the documented data model (JSON
representable records and timestamp, valid normalized settings), exporting to
the backup JSON format and importing it back through the boot path (merge over
defaults, renormalize settings, hydrate) reproduces an equal state. -/
theorem c7_backup_round_trip (tboot : JVal) (s : AppState) (h : stateRTSafe s = true) :
    backupRoundTrip tboot s = .ok s := by
  obtain ⟨pl, tl, mn, st, ca, mt⟩ := s
  simp only [stateRTSafe, Bool.and_eq_true] at h
  obtain ⟨⟨⟨⟨⟨⟨hst, hpl⟩, htl⟩, hmn⟩, hmt⟩, hca1⟩, hca2⟩ := h
  rw [Bool.not_eq_true', beq_eq_false_iff_ne] at hca1
  rw [beq_iff_eq] at hca2
  unfold backupRoundTrip
  rw [normalizeSettings_sanSettings st hst]
  simp only [Except.bind, Bind.bind]
  congr 1
  simp only [AppState.mk.injEq]
  refine ⟨map_sanObj_of_all _ hpl, map_sanObj_of_all _ htl, map_sanObj_of_all _ hmn,
    trivial, ?_, ?_⟩
  · rw [if_neg hca1, hca2]
  · cases mt with
    | none => rfl
    | some l =>
      have hl : l.all objRTSafe = true := by simpa using hmt
      simp [map_sanObj_of_all _ hl]

theorem c7_backup_round_trip_witness :
    stateRTSafe s7 = true ∧ backupRoundTrip (.num (.val 9)) s7 = .ok s7 :=
  ⟨by decide, c7_backup_round_trip (.num (.val 9)) s7 (by decide)⟩

/-- C8: every {entity}/add prepends its payload at index 0 of its collection,
keeping all previous records behind it in order; dispatching polish/add with
the p1 record on the default state yields one polish whose id is p1. -/
theorem c8_add_prepends :
    (∀ (t0 : JVal) (s : AppState) (k : RecColl) (r : JObj),
        reducer t0 s (entityAction k (.add r)) = .ok (s.setColl k (r :: s.coll k))) ∧
    ((reducer (.num (.val 0)) (initialState (.num (.val 0))) (.polishAdd p1Rec)).map
        (fun s2 => (s2.polishes.length, jget (s2.polishes.getD 0 []) "id")) =
      .ok (1, .str "p1")) := by
  refine ⟨fun t0 s k r => ?_, by decide⟩
  cases k <;> rfl

/-- C9: a delivery on the fourth subscription (the meta feed) dispatches
hydrate/partial with a meta payload, which leaves state.settings unchanged and
installs a top-level meta field that the documented initial state shape does
not populate. -/
theorem c9_meta_feed_hydration :
    (∀ (t0 : JVal) (s : AppState) (items : List JObj),
        reducer t0 s (.hydratePartial (listenerPayload .meta items)) =
          .ok { s with meta := some items }) ∧
    (∀ (t0 : JVal) (s : AppState) (items : List JObj),
        (reducer t0 s (.hydratePartial (listenerPayload .meta items))).map
            AppState.settings = .ok s.settings) ∧
    (∀ t : JVal, (initialState t).meta = none) :=
  ⟨fun _ _ _ => rfl, fun _ _ _ => rfl, fun _ => rfl⟩

/-- C10: each {entity}/add, {entity}/update and {entity}/delete changes at
most its own collection: the other two collections, the settings value, the
creation timestamp (and the meta field) of the result equal those of the
input state. -/
theorem c10_entity_actions_frame :
    ∀ (t0 : JVal) (s : AppState) (k : RecColl) (op : EntityOp),
      (reducer t0 s (entityAction k op)).map AppState.settings = .ok s.settings ∧
      (reducer t0 s (entityAction k op)).map AppState.createdAt = .ok s.createdAt ∧
      (reducer t0 s (entityAction k op)).map AppState.meta = .ok s.meta ∧
      ∀ k2 : RecColl, k2 ≠ k →
        (reducer t0 s (entityAction k op)).map (fun s2 => s2.coll k2) = .ok (s.coll k2) := by
  intro t0 s k op
  cases k <;> cases op <;> refine ⟨rfl, rfl, rfl, ?_⟩ <;>
    (intro k2 hk2; cases k2 <;> first | rfl | exact absurd rfl hk2)

theorem c10_entity_actions_frame_witness :
    RecColl.tools ≠ RecColl.polishes ∧
    (reducer (.num (.val 0)) (initialState (.num (.val 0)))
        (entityAction .polishes (.add [("id", .str "w10")]))).map
        (fun s2 => s2.coll .tools) = .ok ((initialState (.num (.val 0))).coll .tools) :=
  ⟨by decide, (c10_entity_actions_frame (.num (.val 0)) (initialState (.num (.val 0)))
    .polishes (.add [("id", .str "w10")])).2.2.2 .tools (by decide)⟩
end NailVault
